import Mathlib

/-!
Verification of the call / signaling subsystem of the animetrika repository.

The definitions below are a shallow embedding of:
  * the client-side call component `src/components/CallModal.tsx`
    (signal handler, ICE candidate buffer, media toggles, screen share,
    recording, quality classification), and
  * the server-side relay handlers in `src/backend/server.js`
    (socket authentication and the `signal` forwarding handler).

Opaque wire payloads (session descriptions, ICE candidates, recorded
chunks) are represented by small inductive types or Nat identifiers;
the claims under verification never inspect their contents, only how
the code routes, buffers, orders and concatenates them.
-/

namespace Animetrika

abbrev UserId := String
abbrev ConnId := Nat
abbrev Cand := Nat
abbrev Chunk := Nat

/-- Kind tag of a session description (RTCSessionDescription type field). -/
inductive SDP
  | offerSdp
  | answerSdp
deriving DecidableEq, Repr

/-- `callStatus` state of CallModal: 'ringing' | 'connected' | 'ended'. -/
inductive CallStatus
  | ringing
  | connected
  | ended
deriving DecidableEq, Repr

inductive TrackKind
  | audio
  | video
deriving DecidableEq, Repr

/-- The underlying capture source of an outgoing media track. -/
inductive TrackSource
  | camera
  | screen
deriving DecidableEq, Repr

/-- A local media track: kind, its `enabled` flag, and its capture source. -/
structure Track where
  kind : TrackKind
  enabled : Bool
  source : TrackSource
deriving DecidableEq, Repr

/-- The RTCPeerConnection as far as the claims observe it: whether a remote
description has been set, the list of ICE candidates applied via
`addIceCandidate` in application order, and the track currently attached
to the video RTCRtpSender. -/
structure PeerConn where
  remoteDescription : Option SDP
  applied : List Cand
  videoSenderTrack : Option Track
deriving DecidableEq, Repr

/-- An incoming/outgoing `signal` message body: the source checks
`signal.offer`, then `signal.answer`, then `signal.candidate`. -/
inductive Signal
  | offer (d : SDP)
  | answer (d : SDP)
  | candidate (c : Cand)
deriving DecidableEq, Repr

/-- The CallModal component state and refs observed by the claims:
React state (`callStatus`, `isMuted`, `isVideoEnabled`, `isScreenSharing`,
`isRecording`, `recordedChunks`) and refs (`localStream`, `peerConnection`,
`iceCandidateBuffer`, the bound remote stream). `onendedCapturedSharing`
records the value of `isScreenSharing` captured by the closure assigned to
`screenTrack.onended` when screen sharing starts. -/
structure ClientState where
  callStatus : CallStatus
  isMuted : Bool
  isVideoEnabled : Bool
  isScreenSharing : Bool
  isRecording : Bool
  recordedChunks : List Chunk
  remoteStreamBound : Bool
  mediaCaptured : Bool
  localStream : Option (List Track)
  peerConnection : Option PeerConn
  iceCandidateBuffer : List Cand
  localDescription : Option SDP
  targetId : UserId
  onendedCapturedSharing : Option Bool
deriving DecidableEq, Repr

/-- `processBufferedCandidates` in CallModal.tsx: while the buffer is
nonempty, shift the front candidate off the buffer and apply it with
`pc.addIceCandidate`.  Returns the updated connection and the (emptied)
buffer. -/
def processBufferedCandidates : PeerConn → List Cand → PeerConn × List Cand
  | pc, [] => (pc, [])
  | pc, c :: rest =>
      processBufferedCandidates { pc with applied := pc.applied ++ [c] } rest

/-- `pc.setRemoteDescription(...)` followed by `processBufferedCandidates()`,
the pattern used in both the offer and the answer branch of the handler. -/
def setRemoteAndDrain (st : ClientState) (pc : PeerConn) (d : SDP) : ClientState :=
  let res := processBufferedCandidates { pc with remoteDescription := some d }
      st.iceCandidateBuffer
  { st with peerConnection := some res.1, iceCandidateBuffer := res.2 }

/-- The `socket.on('signal', ...)` handler of CallModal.tsx.  Returns the
new component state together with the list of `signal` messages it emits.
The first guard drops any message whose `senderId` is not the call peer.
An offer sets the remote description, drains the buffer, creates and sets
a local answer, emits it, and forces `callStatus` to connected.  An answer
sets the remote description, drains the buffer and sets `callStatus` to
connected.  A candidate is applied immediately when a remote description
exists and buffered otherwise. -/
def onSignal (st : ClientState) (senderId : UserId) (sig : Signal) :
    ClientState × List Signal :=
  if senderId ≠ st.targetId then (st, [])
  else
    match st.peerConnection with
    | none => (st, [])
    | some pc =>
      match sig with
      | .offer d =>
          let st' := setRemoteAndDrain st pc d
          ({ st' with localDescription := some .answerSdp,
                      callStatus := .connected },
           [Signal.answer .answerSdp])
      | .answer d =>
          let st' := setRemoteAndDrain st pc d
          ({ st' with callStatus := .connected }, [])
      | .candidate c =>
          if pc.remoteDescription.isSome then
            ({ st with
                peerConnection := some ({ pc with applied := pc.applied ++ [c] }) },
             [])
          else
            ({ st with iceCandidateBuffer := st.iceCandidateBuffer ++ [c] }, [])

/-- The `pc.ontrack` handler: binds the remote stream to the video element
and forces `callStatus` to connected. -/
def onTrack (st : ClientState) : ClientState :=
  { st with remoteStreamBound := true, callStatus := .connected }

/-- Deliver a sequence of `signal` messages from the call peer, keeping only
the state (emissions of candidate/answer deliveries are studied separately). -/
def runSignals (st : ClientState) (sigs : List Signal) : ClientState :=
  sigs.foldl (fun s sig => (onSignal s s.targetId sig).1) st

/-- The initiator's state right after `initCall` has captured media, built the
RTCPeerConnection, registered the handlers and sent the offer: no remote
description yet, empty candidate buffer. -/
def callerInit : ClientState :=
  { callStatus := .ringing
    isMuted := false
    isVideoEnabled := true
    isScreenSharing := false
    isRecording := false
    recordedChunks := []
    remoteStreamBound := false
    mediaCaptured := true
    localStream := some [⟨.audio, true, .camera⟩, ⟨.video, true, .camera⟩]
    peerConnection := some ⟨none, [], some ⟨.video, true, .camera⟩⟩
    iceCandidateBuffer := []
    localDescription := some .offerSdp
    targetId := "peer"
    onendedCapturedSharing := none }

/-- Candidates applied to the peer connection so far, in application order. -/
def appliedCandidates (st : ClientState) : List Cand :=
  match st.peerConnection with
  | some pc => pc.applied
  | none => []

/-- The scenario of the candidate-ordering claim: `pre` candidates arrive
before the remote description, then the answer carrying the description,
then `post` candidates. -/
def candidateScenario (pre post : List Cand) (d : SDP) : ClientState :=
  let st1 := runSignals callerInit (pre.map Signal.candidate)
  let st2 := (onSignal st1 st1.targetId (Signal.answer d)).1
  runSignals st2 (post.map Signal.candidate)

theorem processBufferedCandidates_eq (pc : PeerConn) (buf : List Cand) :
    processBufferedCandidates pc buf = ({ pc with applied := pc.applied ++ buf }, []) := by
  induction buf generalizing pc with
  | nil => simp [processBufferedCandidates]
  | cons c rest ih =>
      simp only [processBufferedCandidates, ih]
      simp

theorem runSignals_candidates_buffered (pre : List Cand) (st : ClientState)
    (pc : PeerConn) (hpc : st.peerConnection = some pc)
    (hrd : pc.remoteDescription = none) :
    runSignals st (pre.map Signal.candidate) =
      { st with iceCandidateBuffer := st.iceCandidateBuffer ++ pre } := by
  induction pre generalizing st with
  | nil => simp [runSignals]
  | cons c rest ih =>
      simp only [List.map_cons, runSignals, List.foldl_cons]
      have hstep : (onSignal st st.targetId (Signal.candidate c)).1 =
          { st with iceCandidateBuffer := st.iceCandidateBuffer ++ [c] } := by
        simp [onSignal, hpc, hrd]
      rw [hstep]
      have := ih { st with iceCandidateBuffer := st.iceCandidateBuffer ++ [c] }
        (by simpa using hpc)
      simp only [runSignals] at this
      rw [this]
      simp

theorem runSignals_candidates_applied (post : List Cand) (st : ClientState)
    (pc : PeerConn) (hpc : st.peerConnection = some pc) (d : SDP)
    (hrd : pc.remoteDescription = some d) :
    runSignals st (post.map Signal.candidate) =
      { st with peerConnection := some { pc with applied := pc.applied ++ post } } := by
  induction post generalizing st pc with
  | nil =>
      simp only [List.map_nil, runSignals, List.foldl_nil]
      cases st
      cases pc
      simp_all
  | cons c rest ih =>
      simp only [List.map_cons, runSignals, List.foldl_cons]
      have hstep : (onSignal st st.targetId (Signal.candidate c)).1 =
          { st with peerConnection := some { pc with applied := pc.applied ++ [c] } } := by
        simp [onSignal, hpc, hrd]
      rw [hstep]
      have := ih { st with peerConnection := some { pc with applied := pc.applied ++ [c] } }
        { pc with applied := pc.applied ++ [c] } (by simp) (by simpa using hrd)
      simp only [runSignals] at this
      rw [this]
      simp

/-- Claim C1: candidates arriving before the remote description are buffered;
the answer sets the remote description and drains the buffer in FIFO order;
candidates arriving afterwards are applied immediately.  For any `pre`
candidates before the description and `post` after, all are applied in their
original relative arrival order and the buffer ends empty. -/
theorem claim_C1_candidate_fifo (pre post : List Cand) (d : SDP) :
    appliedCandidates (candidateScenario pre post d) = pre ++ post ∧
    (candidateScenario pre post d).iceCandidateBuffer = [] := by
  have h1 : runSignals callerInit (pre.map Signal.candidate) =
      (⟨.ringing, false, true, false, false, [], false, true,
        some [⟨.audio, true, .camera⟩, ⟨.video, true, .camera⟩],
        some ⟨none, [], some ⟨.video, true, .camera⟩⟩,
        pre, some .offerSdp, "peer", none⟩ : ClientState) := by
    rw [runSignals_candidates_buffered pre callerInit
      ⟨none, [], some ⟨.video, true, .camera⟩⟩ rfl rfl]
    simp [callerInit]
  have h2 : (onSignal
      (⟨.ringing, false, true, false, false, [], false, true,
        some [⟨.audio, true, .camera⟩, ⟨.video, true, .camera⟩],
        some ⟨none, [], some ⟨.video, true, .camera⟩⟩,
        pre, some .offerSdp, "peer", none⟩ : ClientState)
      (ClientState.targetId ⟨.ringing, false, true, false, false, [], false, true,
        some [⟨.audio, true, .camera⟩, ⟨.video, true, .camera⟩],
        some ⟨none, [], some ⟨.video, true, .camera⟩⟩,
        pre, some .offerSdp, "peer", none⟩)
      (Signal.answer d)).1 =
      (⟨.connected, false, true, false, false, [], false, true,
        some [⟨.audio, true, .camera⟩, ⟨.video, true, .camera⟩],
        some ⟨some d, pre, some ⟨.video, true, .camera⟩⟩,
        [], some .offerSdp, "peer", none⟩ : ClientState) := by
    simp [onSignal, setRemoteAndDrain, processBufferedCandidates_eq]
  have h3 : runSignals
      (⟨.connected, false, true, false, false, [], false, true,
        some [⟨.audio, true, .camera⟩, ⟨.video, true, .camera⟩],
        some ⟨some d, pre, some ⟨.video, true, .camera⟩⟩,
        [], some .offerSdp, "peer", none⟩ : ClientState)
      (post.map Signal.candidate) =
      (⟨.connected, false, true, false, false, [], false, true,
        some [⟨.audio, true, .camera⟩, ⟨.video, true, .camera⟩],
        some ⟨some d, pre ++ post, some ⟨.video, true, .camera⟩⟩,
        [], some .offerSdp, "peer", none⟩ : ClientState) := by
    rw [runSignals_candidates_applied post _ ⟨some d, pre, some ⟨.video, true, .camera⟩⟩ rfl d rfl]
  simp only [candidateScenario]
  rw [h1, h2, h3]
  simp [appliedCandidates]

/-- Claim C2 counterexample: starting from the initiator state, receiving the
Answer message alone (no `ontrack` event has fired: `remoteStreamBound` is
still false afterwards) already moves `callStatus` to connected, contradicting
the claim that Connected is reached only on the first remote track event. -/
theorem claim_C2_counterexample :
    (onSignal callerInit "peer" (Signal.answer .answerSdp)).1.callStatus = .connected ∧
    callerInit.callStatus ≠ .connected ∧
    (onSignal callerInit "peer" (Signal.answer .answerSdp)).1.remoteStreamBound = false := by
  refine ⟨rfl, by decide, rfl⟩

/-- Claim C2 as amended: for the initiator, receiving an Answer message from
the call peer immediately sets `callStatus` to connected (the `ontrack`
handler also forces connected, but the answer alone suffices). -/
theorem claim_C2_answer_connects (st : ClientState) (pc : PeerConn) (d : SDP)
    (hpc : st.peerConnection = some pc) :
    (onSignal st st.targetId (Signal.answer d)).1.callStatus = .connected := by
  simp [onSignal, hpc, setRemoteAndDrain]

theorem claim_C2_answer_connects_witness :
    callerInit.peerConnection = some ⟨none, [], some ⟨.video, true, .camera⟩⟩ ∧
    (onSignal callerInit callerInit.targetId (Signal.answer .answerSdp)).1.callStatus
      = .connected :=
  ⟨rfl, claim_C2_answer_connects callerInit ⟨none, [], some ⟨.video, true, .camera⟩⟩
    .answerSdp rfl⟩

/-- Claim C10: the first guard of the `signal` handler drops any message whose
`senderId` differs from the call peer: the component state is unchanged (no
remote description set, no candidate applied or buffered, status unchanged)
and nothing is emitted. -/
theorem claim_C10_foreign_sender_ignored (st : ClientState) (senderId : UserId)
    (sig : Signal) (h : senderId ≠ st.targetId) :
    onSignal st senderId sig = (st, []) := by
  simp [onSignal, h]

theorem claim_C10_foreign_sender_ignored_witness :
    ("mallory" : UserId) ≠ callerInit.targetId ∧
    onSignal callerInit "mallory" (Signal.offer .offerSdp) = (callerInit, []) :=
  ⟨by decide, claim_C10_foreign_sender_ignored callerInit "mallory"
    (Signal.offer .offerSdp) (by decide)⟩

/-! ## Signaling relay (src/backend/server.js) -/

/-- The opaque `data.signal` body forwarded by the relay.  It may contain a
sender claimed by the sending client; the relay never reads it. -/
structure SigPayload where
  claimedSender : UserId
  body : Nat
deriving DecidableEq, Repr

/-- The argument of a client's `socket.emit('signal', data)`. -/
structure SignalData where
  targetId : UserId
  signal : SigPayload
deriving DecidableEq, Repr

/-- What `io.to(data.targetId).emit('signal', ...)` delivers: the payload with
the `senderId` field the relay added. -/
structure ForwardedSignal where
  senderId : UserId
  signal : SigPayload
deriving DecidableEq, Repr

/-- Connections currently in a room.  Each authenticated socket joins the
room named by its own userId (`socket.join(userId)` in the connection
handler), so the room of an identity holds exactly that user's live
connections. -/
def roomMembers (conns : List (UserId × ConnId)) (room : UserId) : List ConnId :=
  (conns.filter (fun p => p.1 = room)).map (fun p => p.2)

/-- The server's `socket.on('signal', ...)` handler:
`io.to(data.targetId).emit('signal', { senderId: socket.userId, signal: data.signal })`.
`authUserId` is `socket.userId`, set from the verified JWT by the `io.use`
middleware.  The result is the list of deliveries; emitting to an empty room
delivers nothing and reports nothing back to the sender. -/
def relaySignal (conns : List (UserId × ConnId)) (authUserId : UserId)
    (data : SignalData) : List (ConnId × ForwardedSignal) :=
  (roomMembers conns data.targetId).map (fun c => (c, ⟨authUserId, data.signal⟩))

/-- Claim C7: every delivered envelope carries `senderId` equal to the
authenticated identity of the sending connection, regardless of any sender
claimed inside the payload; hence two sends with the same authenticated
sender but different payload-claimed senders are forwarded with identical
`senderId` to identical recipients. -/
theorem claim_C7_sender_is_authenticated (conns : List (UserId × ConnId))
    (auth : UserId) (d1 d2 : SignalData) (m : ConnId × ForwardedSignal) :
    (m ∈ relaySignal conns auth d1 → m.2.senderId = auth) ∧
    (d1.targetId = d2.targetId →
      (relaySignal conns auth d1).map (fun x => (x.1, x.2.senderId)) =
      (relaySignal conns auth d2).map (fun x => (x.1, x.2.senderId))) := by
  constructor
  · intro hm
    simp only [relaySignal, List.mem_map] at hm
    obtain ⟨c, _, heq⟩ := hm
    rw [← heq]
  · intro ht
    simp [relaySignal, ht, List.map_map, Function.comp]

theorem claim_C7_sender_is_authenticated_witness :
    ((5, ⟨"alice", ⟨"mallory", 1⟩⟩) : ConnId × ForwardedSignal) ∈
      relaySignal [("bob", 5)] "alice" ⟨"bob", ⟨"mallory", 1⟩⟩ ∧
    (ForwardedSignal.senderId ⟨"alice", ⟨"mallory", 1⟩⟩) = "alice" ∧
    (relaySignal [("bob", 5)] "alice" ⟨"bob", ⟨"mallory", 1⟩⟩).map
        (fun x => (x.1, x.2.senderId)) =
      (relaySignal [("bob", 5)] "alice" ⟨"bob", ⟨"eve", 2⟩⟩).map
        (fun x => (x.1, x.2.senderId)) :=
  ⟨by decide,
   (claim_C7_sender_is_authenticated [("bob", 5)] "alice"
     ⟨"bob", ⟨"mallory", 1⟩⟩ ⟨"bob", ⟨"eve", 2⟩⟩ (5, ⟨"alice", ⟨"mallory", 1⟩⟩)).1
     (by decide),
   (claim_C7_sender_is_authenticated [("bob", 5)] "alice"
     ⟨"bob", ⟨"mallory", 1⟩⟩ ⟨"bob", ⟨"eve", 2⟩⟩ (5, ⟨"alice", ⟨"mallory", 1⟩⟩)).2 rfl⟩

/-- Claim C3 counterexample: with only "alice" connected, a signal addressed
to "bob" produces no delivery at all — in particular no delivery-failure
message back to the sender's connection.  The relay drops it silently. -/
theorem claim_C3_counterexample :
    relaySignal [("alice", 0)] "alice" ⟨"bob", ⟨"alice", 7⟩⟩ = [] := by
  decide

/-- Claim C3 as amended: when the target identity has no live connection, the
relay's forwarding handler delivers nothing to anyone — the envelope is
silently dropped; no delivery failure is returned to the sender (so nothing
on the server side moves the sender's session to a failed state). -/
theorem claim_C3_unreachable_silent_drop (conns : List (UserId × ConnId))
    (auth : UserId) (data : SignalData)
    (h : roomMembers conns data.targetId = []) :
    relaySignal conns auth data = [] := by
  simp [relaySignal, h]

theorem claim_C3_unreachable_silent_drop_witness :
    roomMembers [("alice", 0)] (SignalData.targetId ⟨"bob", ⟨"alice", 7⟩⟩) = [] ∧
    relaySignal [("alice", 0)] "carol" ⟨"bob", ⟨"alice", 7⟩⟩ = [] :=
  ⟨by decide, claim_C3_unreachable_silent_drop [("alice", 0)] "carol"
    ⟨"bob", ⟨"alice", 7⟩⟩ (by decide)⟩

/-! ## Quality monitor (stats interval in CallModal.tsx) -/

inductive Quality
  | good
  | fair
  | poor
deriving DecidableEq, Repr

/-- `lossRate` of the stats interval: `totalPackets > 0 ?
(packetLoss / totalPackets) * 100 : 0` where
`totalPackets = packetsReceived + packetsLost`.  A percentage. -/
def lossRatePct (packetsLost packetsReceived : ℚ) : ℚ :=
  let totalPackets := packetsReceived + packetsLost
  if totalPackets > 0 then packetsLost / totalPackets * 100 else 0

/-- The quality computation of the stats interval: starts at good, becomes
poor when `lossRate > 5 || jitter > 0.1`, else fair when
`lossRate > 1 || jitter > 0.05`.  `lossRate` is a percentage, `jitter` is in
seconds (the inbound-rtp jitter counter). -/
def classifyQuality (lossRate jitter : ℚ) : Quality :=
  if lossRate > 5 ∨ jitter > 0.1 then .poor
  else if lossRate > 1 ∨ jitter > 0.05 then .fair
  else .good

/-- Modelled from the spec (§4.6) for comparison: good iff loss ≤ 1% and
jitter ≤ 50ms; fair iff (not good and) loss ≤ 5% and jitter ≤ 100ms; poor
otherwise.  Loss in percent, jitter in milliseconds. -/
def classifyQualitySpec (lossPct jitterMs : ℚ) : Quality :=
  if lossPct ≤ 1 ∧ jitterMs ≤ 50 then .good
  else if lossPct ≤ 5 ∧ jitterMs ≤ 100 then .fair
  else .poor

theorem classifyQuality_eq_spec (l j : ℚ) :
    classifyQuality l j = classifyQualitySpec l (j * 1000) := by
  unfold classifyQuality classifyQualitySpec
  simp only [show (0.1 : ℚ) = 1 / 10 by norm_num, show (0.05 : ℚ) = 1 / 20 by norm_num]
  rcases le_or_lt l 1 with hl1 | hl1
  · rcases le_or_lt j (1 / 20 : ℚ) with hj1 | hj1
    · rw [if_neg (by push_neg; exact ⟨by linarith, by linarith⟩),
        if_neg (by push_neg; exact ⟨by linarith, by linarith⟩),
        if_pos ⟨hl1, by linarith⟩]
    · rcases le_or_lt j (1 / 10 : ℚ) with hj2 | hj2
      · rw [if_neg (by push_neg; exact ⟨by linarith, by linarith⟩),
          if_pos (Or.inr hj1),
          if_neg (by push_neg; intro _; linarith),
          if_pos ⟨by linarith, by linarith⟩]
      · rw [if_pos (Or.inr hj2),
          if_neg (by push_neg; intro _; linarith),
          if_neg (by push_neg; intro _; linarith)]
  · rcases le_or_lt l 5 with hl5 | hl5
    · rcases le_or_lt j (1 / 10 : ℚ) with hj2 | hj2
      · rw [if_neg (by push_neg; exact ⟨by linarith, by linarith⟩),
          if_pos (Or.inl hl1),
          if_neg (by push_neg; intro h; exact absurd h (by linarith)),
          if_pos ⟨hl5, by linarith⟩]
      · rw [if_pos (Or.inr hj2),
          if_neg (by push_neg; intro h; exact absurd h (by linarith)),
          if_neg (by push_neg; intro _; linarith)]
    · rw [if_pos (Or.inl (by linarith)),
        if_neg (by push_neg; intro h; exact absurd h (by linarith)),
        if_neg (by push_neg; intro h; exact absurd h (by linarith))]

/-- Claim C4: the loss rate is lost / (lost + received) (as a percentage);
the code's classification agrees with the spec's description (good iff
loss ≤ 1% and jitter ≤ 50ms; fair iff not good, loss ≤ 5% and
jitter ≤ 100ms; poor otherwise); and the three synthetic samples
(0.5%, 20ms), (3%, 80ms), (10%, 150ms) classify as good, fair, poor. -/
theorem claim_C4_quality_classification (lost received l j : ℚ)
    (h : 0 < lost + received) :
    lossRatePct lost received = lost / (lost + received) * 100 ∧
    classifyQuality l j = classifyQualitySpec l (j * 1000) ∧
    classifyQuality (1 / 2) (1 / 50) = .good ∧
    classifyQuality 3 (2 / 25) = .fair ∧
    classifyQuality 10 (3 / 20) = .poor := by
  refine ⟨?_, classifyQuality_eq_spec l j, ?_, ?_, ?_⟩
  · unfold lossRatePct
    rw [if_pos (by linarith), add_comm received lost]
  · norm_num [classifyQuality]
  · norm_num [classifyQuality]
  · norm_num [classifyQuality]

theorem claim_C4_quality_classification_witness :
    (0 : ℚ) < 1 + 99 ∧
    (lossRatePct 1 99 = 1 / (1 + 99) * 100 ∧
     classifyQuality 3 (2 / 25) = classifyQualitySpec 3 (2 / 25 * 1000) ∧
     classifyQuality (1 / 2) (1 / 50) = .good ∧
     classifyQuality 3 (2 / 25) = .fair ∧
     classifyQuality 10 (3 / 20) = .poor) :=
  ⟨by norm_num, claim_C4_quality_classification 1 99 3 (2 / 25) (by norm_num)⟩

/-! ## Media toggles, screen share, recording (CallModal.tsx) -/

/-- The state of the initiator once the answer has been applied and the first
remote track event has fired. -/
def connectedInit : ClientState :=
  onTrack (onSignal callerInit "peer" (Signal.answer .answerSdp)).1

/-- The mute button plus its effect: `setIsMuted(!isMuted)` and
`localStream.current?.getAudioTracks().forEach(t => t.enabled = !isMuted)`.
No signaling message is emitted anywhere on this path. -/
def toggleMute (st : ClientState) : ClientState × List Signal :=
  let m := !st.isMuted
  ({ st with
      isMuted := m,
      localStream := st.localStream.map (List.map (fun t =>
        if t.kind = .audio then { t with enabled := !m } else t)) },
   [])

/-- The camera on/off button plus its effect: `setIsVideoEnabled(!isVideoEnabled)`
and `if(!isScreenSharing) localStream.current?.getVideoTracks().forEach(t =>
t.enabled = isVideoEnabled)`.  No signaling message is emitted. -/
def toggleVideo (st : ClientState) : ClientState × List Signal :=
  let v := !st.isVideoEnabled
  ({ st with
      isVideoEnabled := v,
      localStream := if st.isScreenSharing then st.localStream
        else st.localStream.map (List.map (fun t =>
          if t.kind = .video then { t with enabled := v } else t)) },
   [])

/-- Kind and source of each local track — everything about the tracks except
the `enabled` flags. -/
def trackShape (st : ClientState) : Option (List (TrackKind × TrackSource)) :=
  st.localStream.map (List.map (fun t => (t.kind, t.source)))

theorem trackShape_map (ts : List Track) (f : Track → Track)
    (hf : ∀ t, (f t).kind = t.kind ∧ (f t).source = t.source) :
    (ts.map f).map (fun t => (t.kind, t.source)) =
      ts.map (fun t => (t.kind, t.source)) := by
  induction ts with
  | nil => rfl
  | cons t ts ih => simp [ih, (hf t).1, (hf t).2]

/-- Claim C5: while connected, toggling mute or video emits no signaling
message at all (in particular no Offer or Answer), leaves `callStatus`
connected, and changes nothing about the local tracks except their `enabled`
flags. -/
theorem claim_C5_toggle_without_renegotiation (st : ClientState)
    (h : st.callStatus = .connected) :
    (toggleMute st).2 = [] ∧ (toggleMute st).1.callStatus = .connected ∧
    trackShape (toggleMute st).1 = trackShape st ∧
    (toggleVideo st).2 = [] ∧ (toggleVideo st).1.callStatus = .connected ∧
    trackShape (toggleVideo st).1 = trackShape st := by
  refine ⟨rfl, by simp [toggleMute, h], ?_, rfl, by simp [toggleVideo, h], ?_⟩
  · cases hls : st.localStream with
    | none => simp [toggleMute, trackShape, hls]
    | some ts =>
        simp only [toggleMute, trackShape, hls, Option.map_some]
        exact congrArg some (trackShape_map ts _ (fun t => by
          by_cases ht : t.kind = .audio <;> simp [ht]))
  · by_cases hss : st.isScreenSharing
    · simp [toggleVideo, trackShape, hss]
    · cases hls : st.localStream with
      | none => simp [toggleVideo, trackShape, hls, hss]
      | some ts =>
          simp only [toggleVideo, trackShape, hls, hss, if_false,
            Bool.false_eq_true, Option.map_some]
          exact congrArg some (trackShape_map ts _ (fun t => by
            by_cases ht : t.kind = .video <;> simp [ht]))

theorem claim_C5_toggle_without_renegotiation_witness :
    connectedInit.callStatus = .connected ∧
    ((toggleMute connectedInit).2 = [] ∧
     (toggleMute connectedInit).1.callStatus = .connected ∧
     trackShape (toggleMute connectedInit).1 = trackShape connectedInit ∧
     (toggleVideo connectedInit).2 = [] ∧
     (toggleVideo connectedInit).1.callStatus = .connected ∧
     trackShape (toggleVideo connectedInit).1 = trackShape connectedInit) :=
  ⟨rfl, claim_C5_toggle_without_renegotiation connectedInit rfl⟩

/-- `getAudioTracks()` of the (optional) local stream. -/
def getAudioTracks (s : Option (List Track)) : List Track :=
  (s.getD []).filter (fun t => t.kind = .audio)

/-- `toggleScreenShare` of CallModal.tsx, as the closure created in the render
whose `isScreenSharing` value is `capturedSharing`.  If a screen share is (per
the captured value) active, it reverts: getUserMedia(camera), replace the
video sender's track with the camera track, rebuild the local stream, clear
`isScreenSharing`.  Otherwise it starts: getDisplayMedia, replace the sender
track with the screen track, install `screenTrack.onended = () => { if
(isScreenSharing) toggleScreenShare(); }` — a closure over this same render's
`isScreenSharing`, recorded in `onendedCapturedSharing` — rebuild the local
stream, set `isScreenSharing` and `isVideoEnabled`. -/
def toggleScreenShare (capturedSharing : Bool) (st : ClientState) : ClientState :=
  match st.peerConnection with
  | none => st
  | some pc =>
    if capturedSharing then
      let camTrack : Track := ⟨.video, true, .camera⟩
      { st with
          peerConnection := some ({ pc with videoSenderTrack := some camTrack }),
          localStream := some (camTrack :: getAudioTracks st.localStream),
          isScreenSharing := false }
    else
      let screenTrack : Track := ⟨.video, true, .screen⟩
      { st with
          peerConnection := some ({ pc with videoSenderTrack := some screenTrack }),
          localStream := some (screenTrack :: getAudioTracks st.localStream),
          onendedCapturedSharing := some capturedSharing,
          isScreenSharing := true,
          isVideoEnabled := true }

/-- Clicking the screen-share button: the click always invokes the latest
render's closure, whose captured `isScreenSharing` is the current state. -/
def clickToggleScreenShare (st : ClientState) : ClientState :=
  toggleScreenShare st.isScreenSharing st

/-- The screen track's `onended` event firing (the user stopped sharing via
the platform UI): runs the stored closure, which checks the `isScreenSharing`
value it captured when sharing started and only then calls that render's
`toggleScreenShare`. -/
def screenTrackEnded (st : ClientState) : ClientState :=
  match st.onendedCapturedSharing with
  | some b => if b then toggleScreenShare b st else st
  | none => st

/-- Source of the track currently attached to the outgoing video sender. -/
def videoSenderSource (st : ClientState) : Option TrackSource :=
  (st.peerConnection.bind (fun pc => pc.videoSenderTrack)).map (fun t => t.source)

/-- Claim C6, evaluated on the code: the manual start/stop round trip does
return the outgoing video to the camera source with the session connected
throughout, but when the screen source is stopped externally the installed
`onended` closure is a no-op — it captured `isScreenSharing = false` from the
render in which sharing started — so the sender is left on the (dead) screen
track instead of being substituted back to the camera. -/
theorem claim_C6_screen_share_round_trip :
    videoSenderSource (clickToggleScreenShare connectedInit) = some .screen ∧
    (clickToggleScreenShare connectedInit).callStatus = .connected ∧
    videoSenderSource (clickToggleScreenShare (clickToggleScreenShare connectedInit))
      = some .camera ∧
    (clickToggleScreenShare (clickToggleScreenShare connectedInit)).callStatus
      = .connected ∧
    (clickToggleScreenShare connectedInit).onendedCapturedSharing = some false ∧
    screenTrackEnded (clickToggleScreenShare connectedInit)
      = clickToggleScreenShare connectedInit ∧
    videoSenderSource (screenTrackEnded (clickToggleScreenShare connectedInit))
      = some .screen := by
  decide

/-! ## Callee lifecycle: accept/reject and media capture (CallModal.tsx) -/

inductive UiEvent
  | effectRun
  | accept
  | reject
deriving DecidableEq, Repr

/-- The body of `initCall` up to media acquisition: `getUserMedia` captures
local audio/video, applies the current mute/video flags, and builds the
RTCPeerConnection. -/
def initCallCapture (st : ClientState) : ClientState :=
  { st with
      mediaCaptured := true,
      localStream := some [⟨.audio, !st.isMuted, .camera⟩,
        ⟨.video, st.isVideoEnabled, .camera⟩],
      peerConnection := some ⟨none, [], some ⟨.video, st.isVideoEnabled, .camera⟩⟩ }

/-- One step of the component's lifecycle.  `effectRun` is the WebRTC core
effect; its first line `if (callStatus !== 'connected' && !isInitiator)
return;` skips everything — including `getUserMedia` — for a callee that has
not accepted.  `accept` is `handleAccept` (`setCallStatus('connected')`);
`reject` is `handleReject` → `terminateCall` → `onEnd`. -/
def stepUi (isInitiator : Bool) (st : ClientState) (e : UiEvent) : ClientState :=
  match e with
  | .accept => { st with callStatus := .connected }
  | .reject => { st with callStatus := .ended }
  | .effectRun =>
      if st.callStatus ≠ .connected ∧ isInitiator = false then st
      else initCallCapture st

def runUi (isInitiator : Bool) (st : ClientState) (evs : List UiEvent) : ClientState :=
  evs.foldl (stepUi isInitiator) st

/-- The callee's state the instant the incoming-call modal opens: ringing, no
media captured, no stream, no peer connection. -/
def calleeInit : ClientState :=
  ⟨.ringing, false, true, false, false, [], false, false, none, none, [],
    none, "caller", none⟩

theorem runUi_callee_no_capture (evs : List UiEvent) (st : ClientState)
    (hcap : st.mediaCaptured = false) (hst : st.callStatus ≠ .connected)
    (hacc : UiEvent.accept ∉ evs) :
    (runUi false st evs).mediaCaptured = false ∧
    (runUi false st evs).callStatus ≠ .connected := by
  induction evs generalizing st with
  | nil => exact ⟨hcap, hst⟩
  | cons e rest ih =>
      have hacc' : UiEvent.accept ∉ rest := fun hmem => hacc (List.mem_cons_of_mem _ hmem)
      cases e with
      | accept => exact absurd (List.mem_cons_self _ _) hacc
      | reject =>
          simp only [runUi, List.foldl_cons, stepUi]
          exact ih { st with callStatus := .ended } hcap (by simp) hacc'
      | effectRun =>
          simp only [runUi, List.foldl_cons, stepUi]
          rw [if_pos ⟨hst, by trivial⟩]
          exact ih st hcap hst hacc'

theorem runUi_callee_ringing_not_captured (evs : List UiEvent) (st : ClientState)
    (hq : st.callStatus = .ringing → st.mediaCaptured = false) :
    (runUi false st evs).callStatus = .ringing →
      (runUi false st evs).mediaCaptured = false := by
  induction evs generalizing st with
  | nil => exact hq
  | cons e rest ih =>
      cases e with
      | accept =>
          simp only [runUi, List.foldl_cons, stepUi]
          exact ih { st with callStatus := .connected } (by simp)
      | reject =>
          simp only [runUi, List.foldl_cons, stepUi]
          exact ih { st with callStatus := .ended } (by simp)
      | effectRun =>
          simp only [runUi, List.foldl_cons, stepUi]
          by_cases hc : st.callStatus = .connected
          · rw [if_neg (by simp [hc])]
            exact ih (initCallCapture st) (by simp [initCallCapture, hc])
          · rw [if_pos ⟨hc, by trivial⟩]
            exact ih st hq

/-- Claim C8: for the callee, media is never captured while the session is
still ringing, and in any run of the lifecycle in which the callee never
accepts (in particular when they reject), media is never captured at all. -/
theorem claim_C8_callee_no_capture_before_accept (evs : List UiEvent) :
    ((runUi false calleeInit evs).callStatus = .ringing →
      (runUi false calleeInit evs).mediaCaptured = false) ∧
    (UiEvent.accept ∉ evs → (runUi false calleeInit evs).mediaCaptured = false) :=
  ⟨runUi_callee_ringing_not_captured evs calleeInit (fun _ => rfl),
   fun hacc => (runUi_callee_no_capture evs calleeInit rfl (by decide) hacc).1⟩

theorem claim_C8_callee_no_capture_before_accept_witness :
    UiEvent.accept ∉ [UiEvent.reject, UiEvent.effectRun] ∧
    (runUi false calleeInit [UiEvent.reject, UiEvent.effectRun]).mediaCaptured = false :=
  ⟨by decide,
   (claim_C8_callee_no_capture_before_accept [UiEvent.reject, UiEvent.effectRun]).2
     (by decide)⟩

/-! ## Recording subsystem (CallModal.tsx) -/

inductive RecEvent
  | start
  | dataAvailable (c : Chunk)
  | stop
  | download
deriving DecidableEq, Repr

/-- One step of the recording subsystem, paired with the list of artifacts
produced so far.  `start` is `startRecording`: a no-op without a bound remote
stream, otherwise a fresh MediaRecorder with `ondataavailable` appending to
the shared `recordedChunks` state — which is NOT cleared here.  `dataAvailable`
appends a nonempty chunk while recording.  `stop` is `stopRecording`
(`mediaRecorder.stop()`).  `download` is `downloadRecording`: builds the Blob
from everything in `recordedChunks` and only then clears it. -/
def stepRec (s : ClientState × List (List Chunk)) (e : RecEvent) :
    ClientState × List (List Chunk) :=
  match e with
  | .start => if s.1.remoteStreamBound then ({ s.1 with isRecording := true }, s.2) else s
  | .dataAvailable c =>
      if s.1.isRecording then
        ({ s.1 with recordedChunks := s.1.recordedChunks ++ [c] }, s.2)
      else s
  | .stop => ({ s.1 with isRecording := false }, s.2)
  | .download => ({ s.1 with recordedChunks := [] }, s.2 ++ [s.1.recordedChunks])

def runRec (s : ClientState × List (List Chunk)) (evs : List RecEvent) :
    ClientState × List (List Chunk) :=
  evs.foldl stepRec s

/-- Claim C9 counterexample: two start/stop cycles capturing chunks 1 and 2,
followed by one save, produce the artifact [1, 2] — the second cycle's output
is concatenated with the first cycle's chunk, not the independent [2] the
claim requires. -/
theorem claim_C9_counterexample :
    (runRec (connectedInit, []) [RecEvent.start, RecEvent.dataAvailable 1,
      RecEvent.stop, RecEvent.start, RecEvent.dataAvailable 2, RecEvent.stop,
      RecEvent.download]).2 = [[1, 2]] ∧
    ([[1, 2]] : List (List Chunk)) ≠ [[2]] := by
  decide

theorem runRec_chunks (cs : List Chunk) (st : ClientState)
    (arts : List (List Chunk)) (h : st.isRecording = true) :
    runRec (st, arts) (cs.map RecEvent.dataAvailable) =
      ({ st with recordedChunks := st.recordedChunks ++ cs }, arts) := by
  induction cs generalizing st with
  | nil => simp [runRec]
  | cons c rest ih =>
      simp only [List.map_cons, runRec, List.foldl_cons]
      rw [show stepRec (st, arts) (RecEvent.dataAvailable c) =
        ({ st with recordedChunks := st.recordedChunks ++ [c] }, arts) from by
          simp [stepRec, h]]
      have := ih { st with recordedChunks := st.recordedChunks ++ [c] } (by simpa using h)
      simp only [runRec] at this
      rw [this]
      simp

theorem runRec_append (s : ClientState × List (List Chunk))
    (l1 l2 : List RecEvent) :
    runRec s (l1 ++ l2) = runRec (runRec s l1) l2 := by
  simp [runRec, List.foldl_append]

/-- One full recording cycle (start, chunks, stop) from a state with a bound
remote stream: the chunks are appended to whatever was already in
`recordedChunks`; no artifact is produced. -/
theorem runRec_cycle (st : ClientState) (arts : List (List Chunk))
    (cs : List Chunk) (hrb : st.remoteStreamBound = true) :
    runRec (st, arts) ([RecEvent.start] ++ cs.map RecEvent.dataAvailable
      ++ [RecEvent.stop]) =
      ({ st with isRecording := false, recordedChunks := st.recordedChunks ++ cs }, arts) := by
  rw [runRec_append, runRec_append]
  rw [show runRec (st, arts) [RecEvent.start] =
    ({ st with isRecording := true }, arts) from by simp [runRec, stepRec, hrb]]
  rw [runRec_chunks cs _ _ rfl]
  simp [runRec, stepRec]

/-- Claim C9 as amended: the chunk buffer accumulates across start/stop cycles
and is cleared only by a save; the artifact produced by the save after two
cycles capturing `as` then `bs` is the concatenation `as ++ bs`, and the
buffer is empty afterwards. -/
theorem claim_C9_artifact_concatenates_cycles (as bs : List Chunk) :
    (runRec (connectedInit, [])
      (([RecEvent.start] ++ as.map RecEvent.dataAvailable ++ [RecEvent.stop])
        ++ ([RecEvent.start] ++ bs.map RecEvent.dataAvailable ++ [RecEvent.stop])
        ++ [RecEvent.download])).2 = [as ++ bs] ∧
    (runRec (connectedInit, [])
      (([RecEvent.start] ++ as.map RecEvent.dataAvailable ++ [RecEvent.stop])
        ++ ([RecEvent.start] ++ bs.map RecEvent.dataAvailable ++ [RecEvent.stop])
        ++ [RecEvent.download])).1.recordedChunks = [] := by
  have hrc : connectedInit.recordedChunks = [] := rfl
  rw [runRec_append, runRec_append]
  rw [runRec_cycle connectedInit [] as rfl]
  rw [runRec_cycle _ [] bs rfl]
  simp [runRec, stepRec, hrc]

end Animetrika
